import Mathlib

/-!
Shallow embedding of the NPC dialogue-graph generator backend
(`backend/routes/tasks.py`, `backend/routes/datasets.py`,
`backend/models/api.py`, `backend/models/db.py`).

Numeric values are modelled as exact rationals (ℚ).  The Python
`math.exp` function is an abstract parameter `E : ℚ → ℚ`, the `random`
module's seeded stream is a parameter `g : ℤ → ℕ → ℚ` (seed → index of
the draw → value of `random.random()`), and the `"%.4f"` float
formatting used in status messages is a parameter `fmt : ℚ → String`.
`random.uniform a b` is `a + (b - a) * random.random()`, consuming one
draw from the stream.
-/

namespace Backend

/-- The four task states of `models/db.py` / `models/api.py`
(`"queued" | "running" | "succeeded" | "failed"`). -/
inductive TaskState where
  | queued
  | running
  | succeeded
  | failed
deriving DecidableEq, Repr

/-- Ordering rank along `queued → running → (succeeded or failed)`. -/
def TaskState.rank : TaskState → ℕ
  | .queued => 0
  | .running => 1
  | .succeeded => 2
  | .failed => 2

/-- A terminal state. -/
def TaskState.isTerminal : TaskState → Bool
  | .succeeded => true
  | .failed => true
  | _ => false

/-- One entry of the training history list
(`{"epoch", "loss", "accuracy", "perplexity", "style_score"}`). -/
structure HistEntry where
  epoch : ℚ
  loss : ℚ
  accuracy : ℚ
  perplexity : ℚ
  style_score : ℚ
deriving DecidableEq, Repr

/-- A metrics record `{loss, accuracy, perplexity, style_score}` (the
final metrics json, with no epoch field). -/
structure Metrics where
  loss : ℚ
  accuracy : ℚ
  perplexity : ℚ
  style_score : ℚ
deriving DecidableEq, Repr

/-- Python `history[-1]` with the `"epoch"` key removed
(`{k: v for k, v in history[-1].items() if k != "epoch"}`). -/
def stripEpoch (h : HistEntry) : Metrics :=
  ⟨h.loss, h.accuracy, h.perplexity, h.style_score⟩

/-- The `Hyperparameters` pydantic model of `models/api.py`.  It
declares no validator: any integer values are accepted. -/
structure Hyperparameters where
  lr : ℚ := 1/10000
  batch_size : ℤ := 16
  epochs : ℤ := 5
  seed : ℤ := 42
deriving DecidableEq, Repr

/-- The `Task` row of `models/db.py` (fields relevant to the claims;
timestamps are modelled as "has been set" booleans since wall-clock
values are not part of any claim). -/
structure Task where
  task_id : String
  type : String
  state : TaskState
  startedSet : Bool
  endedSet : Bool
  progress : ℚ
  message : String
  model_tag : String
  dataset_id : String
  hyperparameters : Option Hyperparameters
  metrics : Option Metrics
  history : List HistEntry
deriving DecidableEq, Repr

/-- State of the `random` module after some draws: the index of the
next value of the seeded stream to be consumed. -/
structure RState where
  idx : ℕ
deriving DecidableEq, Repr

/-- Python `random.uniform(a, b)`: `a + (b-a) * random.random()`, consuming
one draw from the seeded stream `u`. -/
def uniform (u : ℕ → ℚ) (a b : ℚ) (s : RState) : ℚ × RState :=
  (a + (b - a) * u s.idx, ⟨s.idx + 1⟩)

/-- The loop body of `_temp_training_worker` (`tasks.py` lines
108-122), iterated: `r` is the number of iterations left (Python
`range(hp.epochs)` runs `max 0 hp.epochs` iterations), `e` the current
0-based epoch index, `s` the generator state, `hist` the in-memory
`history` list, `row` the task row as last committed.  Returns the
final history, generator state and row, together with the list of row
snapshots committed by the loop, in order (one `session.commit()` per
iteration). -/
def trainSteps (E : ℚ → ℚ) (u : ℕ → ℚ) (fmt : ℚ → String) (epochs : ℤ) :
    ℕ → ℕ → RState → List HistEntry → Task →
    List HistEntry × RState × Task × List Task
  | 0, _, s, hist, row => (hist, s, row, [])
  | r + 1, e, s, hist, row =>
    let frac : ℚ := (e + 1 : ℚ) / (epochs : ℚ)
    let loss : ℚ := 1.2 * E (-2.2 * frac) + (uniform u 0.01 0.05 s).1
    let s1 : RState := (uniform u 0.01 0.05 s).2
    let acc : ℚ := 0.4 + 0.6 * frac + (uniform u (-0.02) 0.02 s1).1
    let s2 : RState := (uniform u (-0.02) 0.02 s1).2
    let ppl : ℚ := E (loss * 3.0)
    let style : ℚ := 0.5 + 0.5 * frac + (uniform u (-0.03) 0.03 s2).1
    let s3 : RState := (uniform u (-0.03) 0.03 s2).2
    let hist' : List HistEntry := hist ++ [⟨(e + 1 : ℚ), loss, acc, ppl, style⟩]
    let row' : Task := { row with
      progress := frac
      message := "Epoch " ++ toString (e + 1) ++ "/" ++ toString epochs ++
        " - Loss: " ++ fmt loss ++ ", Accuracy: " ++ fmt acc ++
        ", Perplexity: " ++ fmt ppl ++ ", Style Score: " ++ fmt style
      history := hist' }
    let rest := trainSteps E u fmt epochs r (e + 1) s3 hist' row'
    (rest.1, rest.2.1, rest.2.2.1, row' :: rest.2.2.2)

/-- Worker `_temp_training_worker` (`tasks.py` lines 93-140): the sequence of
row snapshots committed to the store, in order.  The worker first
commits the `running` transition, seeds the generator with
`hp.seed` (`random.seed(hp.seed)`, modelled as selecting the stream
`g hp.seed`), runs the epoch loop, then reads `history[-1]`: on a
non-empty history it commits the `succeeded` row with the final
metrics; on an empty history (`epochs <= 0`) the `history[-1]` access
raises `IndexError("list index out of range")` and the `except` branch
commits the `failed` row. -/
def trainWorker (E : ℚ → ℚ) (g : ℤ → ℕ → ℚ) (fmt : ℚ → String)
    (hp : Hyperparameters) (t0 : Task) : List Task :=
  let row1 : Task := { t0 with state := .running, startedSet := true }
  let u := g hp.seed
  let res := trainSteps E u fmt hp.epochs hp.epochs.toNat 0 ⟨0⟩ [] row1
  match res.1.getLast? with
  | some last =>
    row1 :: res.2.2.2 ++ [{ res.2.2.1 with
      state := .succeeded
      endedSet := true
      message := "Training completed"
      metrics := some (stripEpoch last) }]
  | none =>
    row1 :: res.2.2.2 ++ [{ res.2.2.1 with
      state := .failed
      endedSet := true
      message := "Training failed: list index out of range" }]

/-- The progress loop of `_temp_evaluation_worker` (`tasks.py` lines
153-159): `r` iterations left out of `steps = 5`, `i` the 0-based step
index; each iteration sets `progress = (i+1)/steps` and a status
message and commits.  Returns the final row and the committed
snapshots in order. -/
def evalSteps : ℕ → ℕ → Task → Task × List Task
  | 0, _, row => (row, [])
  | r + 1, i, row =>
    let row' : Task := { row with
      progress := (i + 1 : ℚ) / 5
      message := "Evaluating " ++ row.model_tag ++ " on " ++ row.dataset_id ++
        " - Step " ++ toString (i + 1) ++ "/5" }
    let rest := evalSteps r (i + 1) row'
    (rest.1, row' :: rest.2)

/-- Python `seed_val = abs(hash((row.model_tag, row.dataset_id))) % (2**32)`
(`tasks.py` line 162); `h` models Python's built-in `hash` on the pair
of strings (fixed within one interpreter process). -/
def evalSeed (h : String → String → ℤ) (tag ds : String) : ℕ :=
  (h tag ds).natAbs % 2 ^ 32

/-- Worker `_temp_evaluation_worker` (`tasks.py` lines 142-184): commits the
`running` transition, runs the 5 fixed progress steps, derives the
seed from `hash((model_tag, dataset_id))`, seeds the generator and
draws `loss`, `acc`, `style` in source order (`ppl` is computed from
`loss` without a draw), then commits the `succeeded` row with the
metrics. -/
def evalWorker (E : ℚ → ℚ) (g : ℤ → ℕ → ℚ) (h : String → String → ℤ)
    (t0 : Task) : List Task :=
  let row1 : Task := { t0 with state := .running, startedSet := true }
  let res := evalSteps 5 0 row1
  let u := g (evalSeed h res.1.model_tag res.1.dataset_id : ℤ)
  let loss : ℚ := (uniform u 0.2 0.6 ⟨0⟩).1
  let s1 : RState := (uniform u 0.2 0.6 ⟨0⟩).2
  let acc : ℚ := (uniform u 0.7 0.9 s1).1
  let s2 : RState := (uniform u 0.7 0.9 s1).2
  let ppl : ℚ := E (loss * 2.5)
  let style : ℚ := (uniform u 0.65 0.9 s2).1
  row1 :: res.2 ++ [{ res.1 with
    state := .succeeded
    endedSet := true
    message := "Evaluation completed"
    metrics := some ⟨loss, acc, ppl, style⟩ }]

/-- The `Dataset` row of `models/db.py`: integer primary key `id`,
unique external `dataset_id`, optional description. -/
structure DatasetRow where
  id : ℕ
  dataset_id : String
  description : Option String
deriving DecidableEq, Repr

/-- The `DatasetSample` row of `models/db.py` (sample primary key is
not needed by any claim and is omitted). -/
structure SampleRow where
  dataset_fk : ℕ
  persona : String
  emotion : String
  text : String
  tags : Option (List String)
deriving DecidableEq, Repr

/-- Model `DatasetSampleCreate` of `models/api.py`. -/
structure DatasetSampleCreate where
  persona : String
  emotion : String
  text : String
  tags : Option (List String) := none
deriving DecidableEq, Repr

/-- Model `CreateDatasetRequest` of `models/api.py`. -/
structure CreateDatasetRequest where
  dataset_id : String
  description : Option String := none
  samples : Option (List DatasetSampleCreate) := none
deriving DecidableEq, Repr

/-- Model `TrainRequest` of `models/api.py`. -/
structure TrainRequest where
  model_tag : String := "baseline_stub_v0"
  dataset_id : String
  hyperparameters : Hyperparameters := {}
deriving DecidableEq, Repr

/-- The record store: dataset rows, sample rows, task rows keyed by
`task_id`, and the next auto-increment primary key for datasets. -/
structure DB where
  datasets : List DatasetRow
  samples : List SampleRow
  tasks : List (String × Task)
  nextPk : ℕ
deriving DecidableEq, Repr

/-- Errors surfaced by the routes: `HTTPException(404)`,
`HTTPException(409)`, and the two uncaught Python exceptions that
escape as server errors. -/
inductive ApiError where
  | notFound
  | conflict
  | nameError
  | attributeError
deriving DecidableEq, Repr

/-- Python `session.exec(select(Dataset).where(Dataset.dataset_id == did)).first()`. -/
def findDataset (db : DB) (did : String) : Option DatasetRow :=
  db.datasets.find? (fun d => d.dataset_id == did)

/-- The samples belonging to a dataset primary key
(`select(DatasetSample).where(DatasetSample.dataset_fk == pk)`). -/
def samplesFor (db : DB) (pk : ℕ) : List SampleRow :=
  db.samples.filter (fun s => s.dataset_fk == pk)

/-- Route `create_dataset` (`datasets.py` lines 13-27).  A duplicate
`dataset_id` raises 409 before any write.  Otherwise the dataset row
is committed; then, if the request carries a non-empty sample list,
the call `_add_samples(session, ds.id, req.samples)` raises
`NameError` — `_add_samples` is commented out in the module (lines
175-186) and is not defined — so no sample is ever stored and the
request fails after the dataset commit. -/
def create_dataset (db : DB) (req : CreateDatasetRequest) :
    DB × Except ApiError DatasetRow :=
  match findDataset db req.dataset_id with
  | some _ => (db, .error .conflict)
  | none =>
    let ds : DatasetRow := ⟨db.nextPk, req.dataset_id, req.description⟩
    let db' : DB := { db with datasets := db.datasets ++ [ds], nextPk := db.nextPk + 1 }
    match req.samples with
    | some (_ :: _) => (db', .error .nameError)
    | _ => (db', .ok ds)

/-- Route `delete_dataset` (`datasets.py` lines 40-52).  A missing dataset
raises 404.  Otherwise the code evaluates
`session.exec(select(DatasetSample).where(...)).delete()`: but
`session.exec(select(...))` returns a sqlmodel `ScalarResult`, which
has `.all()` / `.first()` and no `.delete()` method, so the attribute
access raises `AttributeError` before `session.delete(ds)` and
`session.commit()` are reached — nothing is deleted. -/
def delete_dataset (db : DB) (did : String) : DB × Except ApiError String :=
  match findDataset db did with
  | none => (db, .error .notFound)
  | some _ => (db, .error .attributeError)

/-- Route `get_dataset_samples` (`datasets.py` lines 70-87): 404 when the
dataset does not exist, otherwise the list of its samples. -/
def get_dataset_samples (db : DB) (did : String) :
    Except ApiError (List SampleRow) :=
  match findDataset db did with
  | none => .error .notFound
  | some ds => .ok (samplesFor db ds.id)

/-- Model `TaskResponse` of `models/api.py` (fields relevant to the claims). -/
structure TaskResponse where
  task_id : String
  type : String
  state : TaskState
  startedSet : Bool
  endedSet : Bool
  progress : ℚ
  message : String
  model_tag : String
  dataset_id : String
  hyperparameters : Option Hyperparameters
  metrics : Option Metrics
  history : List HistEntry
deriving DecidableEq, Repr

/-- Mapper `_task_to_response` (`tasks.py` lines 188-203): copies every field
of the row into the response. -/
def task_to_response (row : Task) : TaskResponse :=
  ⟨row.task_id, row.type, row.state, row.startedSet, row.endedSet,
   row.progress, row.message, row.model_tag, row.dataset_id,
   row.hyperparameters, row.metrics, row.history⟩

/-- Python `session.get(Task, task_id)`. -/
def findTask (db : DB) (tid : String) : Option Task :=
  (db.tasks.find? (fun p => p.1 == tid)).map (fun p => p.2)

/-- Route `get_training_task` (`tasks.py` lines 46-51): 404 when no row
exists, otherwise the response mapped from the current row. -/
def get_training_task (db : DB) (tid : String) : Except ApiError TaskResponse :=
  match findTask db tid with
  | none => .error .notFound
  | some row => .ok (task_to_response row)

/-- Route `start_training` (`tasks.py` lines 15-44): 404 when the dataset
does not exist; otherwise a `queued` task row with `progress = 0.0` is
committed under the freshly generated `task_id` (modelled as the
parameter `tid`, `uuid.uuid4().hex` in the source), the background
worker is scheduled, and the response mapped from the new row is
returned. -/
def start_training (db : DB) (req : TrainRequest) (tid : String) :
    DB × Except ApiError TaskResponse :=
  match findDataset db req.dataset_id with
  | none => (db, .error .notFound)
  | some _ =>
    let task : Task := {
      task_id := tid
      type := "train"
      state := .queued
      startedSet := false
      endedSet := false
      progress := 0.0
      message := "Queued for training"
      model_tag := req.model_tag
      dataset_id := req.dataset_id
      hyperparameters := some req.hyperparameters
      metrics := none
      history := [] }
    let db' : DB := { db with tasks := db.tasks ++ [(tid, task)] }
    (db', .ok (task_to_response task))

/-- Spec-side: `U(a,b)` drawn at position `k` of the seeded stream:
`a + (b - a) * u k`. -/
def specU (u : ℕ → ℚ) (a b : ℚ) (k : ℕ) : ℚ :=
  a + (b - a) * u k

/-- Spec-side (from the claim's wording): the history entry for
1-based step `e` of `N`: `frac = e/N`,
`loss = 1.2*exp(-2.2*frac) + U(0.01,0.05)`,
`accuracy = 0.4 + 0.6*frac + U(-0.02,0.02)`,
`perplexity = exp(loss*3.0)`,
`style_score = 0.5 + 0.5*frac + U(-0.03,0.03)`, where step `e`
consumes exactly the three draws `3*(e-1)`, `3*(e-1)+1`, `3*(e-1)+2`
of the seeded stream, in the order loss, accuracy, style. -/
def specEntry (E : ℚ → ℚ) (u : ℕ → ℚ) (N : ℕ) (e : ℕ) : HistEntry :=
  let frac : ℚ := (e : ℚ) / (N : ℚ)
  let loss : ℚ := 1.2 * E (-2.2 * frac) + specU u 0.01 0.05 (3 * (e - 1))
  let accuracy : ℚ := 0.4 + 0.6 * frac + specU u (-0.02) 0.02 (3 * (e - 1) + 1)
  let perplexity : ℚ := E (loss * 3.0)
  let style : ℚ := 0.5 + 0.5 * frac + specU u (-0.03) 0.03 (3 * (e - 1) + 2)
  ⟨(e : ℚ), loss, accuracy, perplexity, style⟩

/-- Spec-side (from the claim's wording): the evaluation metrics for a
`(model_tag, dataset_id)` pair: seed the generator with the hash-derived
seed and draw `loss = U(0.2,0.6)`, `accuracy = U(0.7,0.9)`,
`perplexity = exp(loss*2.5)`, `style_score = U(0.65,0.9)`, in that
draw order (positions 0, 1, 2 of the freshly seeded stream). -/
def specEvalMetrics (E : ℚ → ℚ) (g : ℤ → ℕ → ℚ) (h : String → String → ℤ)
    (tag ds : String) : Metrics :=
  let u := g (evalSeed h tag ds : ℤ)
  let loss : ℚ := specU u 0.2 0.6 0
  let accuracy : ℚ := specU u 0.7 0.9 1
  let perplexity : ℚ := E (loss * 2.5)
  let style : ℚ := specU u 0.65 0.9 2
  ⟨loss, accuracy, perplexity, style⟩

/-- The entry produced by the loop body at 0-based epoch `e` when the
generator is about to emit draw `k`. -/
def entryAt (E : ℚ → ℚ) (u : ℕ → ℚ) (epochs : ℤ) (e k : ℕ) : HistEntry :=
  let frac : ℚ := (e + 1 : ℚ) / (epochs : ℚ)
  let loss : ℚ := 1.2 * E (-2.2 * frac) + specU u 0.01 0.05 k
  let accuracy : ℚ := 0.4 + 0.6 * frac + specU u (-0.02) 0.02 (k + 1)
  let perplexity : ℚ := E (loss * 3.0)
  let style : ℚ := 0.5 + 0.5 * frac + specU u (-0.03) 0.03 (k + 2)
  ⟨(e + 1 : ℚ), loss, accuracy, perplexity, style⟩

theorem trainSteps_hist (E : ℚ → ℚ) (u : ℕ → ℚ) (fmt : ℚ → String) (epochs : ℤ) :
    ∀ (r e : ℕ) (s : RState) (hist : List HistEntry) (row : Task),
      (trainSteps E u fmt epochs r e s hist row).1 =
        hist ++ (List.range r).map (fun j => entryAt E u epochs (e + j) (s.idx + 3 * j)) := by
  intro r
  induction r with
  | zero => intro e s hist row; simp [trainSteps]
  | succ r ih =>
    intro e s hist row
    simp only [trainSteps]
    rw [ih]
    rw [List.range_succ_eq_map, List.map_cons, List.map_map]
    simp only [List.append_assoc, List.singleton_append, List.append_cancel_left_eq,
      List.cons.injEq, List.map_inj_left, Function.comp, Nat.succ_eq_add_one,
      List.mem_range]
    constructor
    · simp [entryAt, specU, uniform]
    · intro j hj
      have h1 : e + 1 + j = e + (j + 1) := by omega
      have h2 : s.idx + 1 + 1 + 1 + 3 * j = s.idx + 3 * (j + 1) := by omega
      simp only [uniform]
      rw [h1, h2]

theorem trainSteps_rstate (E : ℚ → ℚ) (u : ℕ → ℚ) (fmt : ℚ → String) (epochs : ℤ) :
    ∀ (r e : ℕ) (s : RState) (hist : List HistEntry) (row : Task),
      (trainSteps E u fmt epochs r e s hist row).2.1 = ⟨s.idx + 3 * r⟩ := by
  intro r
  induction r with
  | zero => intro e s hist row; simp [trainSteps]
  | succ r ih =>
    intro e s hist row
    simp only [trainSteps]
    rw [ih]
    simp [uniform]
    omega

theorem trainSteps_states (E : ℚ → ℚ) (u : ℕ → ℚ) (fmt : ℚ → String) (epochs : ℤ) :
    ∀ (r e : ℕ) (s : RState) (hist : List HistEntry) (row : Task),
      (trainSteps E u fmt epochs r e s hist row).2.2.2.map Task.state =
        List.replicate r row.state := by
  intro r
  induction r with
  | zero => intro e s hist row; simp [trainSteps]
  | succ r ih =>
    intro e s hist row
    simp only [trainSteps, List.map_cons]
    rw [ih]
    simp [List.replicate_succ]

theorem trainSteps_progressList (E : ℚ → ℚ) (u : ℕ → ℚ) (fmt : ℚ → String) (epochs : ℤ) :
    ∀ (r e : ℕ) (s : RState) (hist : List HistEntry) (row : Task),
      (trainSteps E u fmt epochs r e s hist row).2.2.2.map Task.progress =
        (List.range r).map (fun (j : ℕ) => ((e : ℚ) + (j : ℚ) + 1) / (epochs : ℚ)) := by
  intro r
  induction r with
  | zero => intro e s hist row; simp [trainSteps]
  | succ r ih =>
    intro e s hist row
    simp only [trainSteps, List.map_cons]
    rw [ih]
    rw [List.range_succ_eq_map, List.map_cons, List.map_map]
    simp only [List.cons.injEq, List.map_inj_left, Function.comp,
      Nat.succ_eq_add_one, List.mem_range]
    constructor
    · push_cast
      ring
    · intro j hj
      push_cast
      ring

theorem trainSteps_rowF_state (E : ℚ → ℚ) (u : ℕ → ℚ) (fmt : ℚ → String) (epochs : ℤ) :
    ∀ (r e : ℕ) (s : RState) (hist : List HistEntry) (row : Task),
      (trainSteps E u fmt epochs r e s hist row).2.2.1.state = row.state := by
  intro r
  induction r with
  | zero => intro e s hist row; simp [trainSteps]
  | succ r ih =>
    intro e s hist row
    simp only [trainSteps]
    rw [ih]

theorem trainSteps_rowF_history (E : ℚ → ℚ) (u : ℕ → ℚ) (fmt : ℚ → String) (epochs : ℤ) :
    ∀ (r e : ℕ) (s : RState) (hist : List HistEntry) (row : Task), 0 < r →
      (trainSteps E u fmt epochs r e s hist row).2.2.1.history =
        (trainSteps E u fmt epochs r e s hist row).1 := by
  intro r
  induction r with
  | zero => intro e s hist row h; omega
  | succ r ih =>
    intro e s hist row _
    simp only [trainSteps]
    rcases Nat.eq_zero_or_pos r with hr | hr
    · subst hr
      simp [trainSteps]
    · exact ih _ _ _ _ hr

theorem trainSteps_rowF_progress (E : ℚ → ℚ) (u : ℕ → ℚ) (fmt : ℚ → String) (epochs : ℤ) :
    ∀ (r e : ℕ) (s : RState) (hist : List HistEntry) (row : Task), 0 < r →
      (trainSteps E u fmt epochs r e s hist row).2.2.1.progress =
        ((e : ℚ) + (r : ℚ)) / (epochs : ℚ) := by
  intro r
  induction r with
  | zero => intro e s hist row h; omega
  | succ r ih =>
    intro e s hist row _
    simp only [trainSteps]
    rcases Nat.eq_zero_or_pos r with hr | hr
    · subst hr
      simp [trainSteps]
    · rw [ih _ _ _ _ hr]
      push_cast
      ring

theorem trainSteps_congr (E : ℚ → ℚ) (fmt : ℚ → String) (epochs : ℤ) (u₁ u₂ : ℕ → ℚ) :
    ∀ (r e : ℕ) (s : RState) (hist : List HistEntry) (row : Task),
      (∀ i, s.idx ≤ i → i < s.idx + 3 * r → u₁ i = u₂ i) →
      trainSteps E u₁ fmt epochs r e s hist row =
        trainSteps E u₂ fmt epochs r e s hist row := by
  intro r
  induction r with
  | zero => intro e s hist row _; simp [trainSteps]
  | succ r ih =>
    intro e s hist row hag
    have h0 : u₁ s.idx = u₂ s.idx := hag _ le_rfl (by omega)
    have h1 : u₁ (s.idx + 1) = u₂ (s.idx + 1) := hag _ (by omega) (by omega)
    have h2 : u₁ (s.idx + 1 + 1) = u₂ (s.idx + 1 + 1) := hag _ (by omega) (by omega)
    have hag' : ∀ i, s.idx + 1 + 1 + 1 ≤ i → i < s.idx + 1 + 1 + 1 + 3 * r → u₁ i = u₂ i :=
      fun i hi1 hi2 => hag i (by omega) (by omega)
    simp only [trainSteps, uniform]
    rw [h0, h1, h2, ih (e + 1) ⟨s.idx + 1 + 1 + 1⟩ _ _ hag']

theorem entryAt_eq_specEntry (E : ℚ → ℚ) (u : ℕ → ℚ) (hp : Hyperparameters) (N : ℕ)
    (hE : hp.epochs = (N : ℤ)) (e : ℕ) (he1 : 1 ≤ e) :
    entryAt E u hp.epochs (e - 1) (3 * (e - 1)) = specEntry E u N e := by
  obtain ⟨e', rfl⟩ : ∃ e', e = e' + 1 := ⟨e - 1, by omega⟩
  simp only [entryAt, specEntry, specU, hE, Nat.add_sub_cancel]
  push_cast
  rfl

/-- Claim C1: for every training task with hyperparameters `epochs = N ≥ 1`
and seed `S`, the training worker seeds the generator with `S` and, for
each step `e` in `1..N`, computes `frac = e/N`,
`loss = 1.2*exp(-2.2*frac) + U(0.01,0.05)`,
`accuracy = 0.4 + 0.6*frac + U(-0.02,0.02)`,
`perplexity = exp(loss*3.0)`,
`style_score = 0.5 + 0.5*frac + U(-0.03,0.03)`, consuming exactly three
uniform draws per step in the order loss, accuracy, style with the
stream state carried across steps (step `e` consumes draws `3*(e-1)`,
`3*(e-1)+1`, `3*(e-1)+2`, and the final generator state has emitted
exactly `3*N` draws); the history has exactly `N` entries and the final
reported metrics equal the last entry's
`{loss, accuracy, perplexity, style_score}` with the epoch field
excluded. -/
theorem C1_training_simulation (E : ℚ → ℚ) (g : ℤ → ℕ → ℚ) (fmt : ℚ → String)
    (hp : Hyperparameters) (t0 : Task) (N : ℕ) (hN : 1 ≤ N)
    (hE : hp.epochs = (N : ℤ)) :
    ∃ finalRow : Task,
      (trainWorker E g fmt hp t0).getLast? = some finalRow ∧
      finalRow.state = .succeeded ∧
      finalRow.history.length = N ∧
      (∀ e : ℕ, 1 ≤ e → e ≤ N →
        finalRow.history.get? (e - 1) = some (specEntry E (g hp.seed) N e)) ∧
      (∃ lastEntry : HistEntry,
        finalRow.history.getLast? = some lastEntry ∧
        finalRow.metrics = some (stripEpoch lastEntry)) ∧
      (trainSteps E (g hp.seed) fmt hp.epochs hp.epochs.toNat 0 ⟨0⟩ []
        { t0 with state := .running, startedSet := true }).2.1 = ⟨3 * N⟩ := by
  have htoNat : hp.epochs.toNat = N := by
    rw [hE]
    exact Int.toNat_natCast N
  have hhist : (trainSteps E (g hp.seed) fmt hp.epochs hp.epochs.toNat 0 ⟨0⟩ []
      { t0 with state := .running, startedSet := true }).1 =
      (List.range N).map (fun j => entryAt E (g hp.seed) hp.epochs j (3 * j)) := by
    rw [htoNat, trainSteps_hist]
    simp
  have hlen : (trainSteps E (g hp.seed) fmt hp.epochs hp.epochs.toNat 0 ⟨0⟩ []
      { t0 with state := .running, startedSet := true }).1.length = N := by
    rw [hhist]
    simp
  have hne : (trainSteps E (g hp.seed) fmt hp.epochs hp.epochs.toNat 0 ⟨0⟩ []
      { t0 with state := .running, startedSet := true }).1 ≠ [] := by
    intro hcon
    rw [hcon] at hlen
    simp at hlen
    omega
  obtain ⟨last, hlast⟩ := Option.isSome_iff_exists.mp (List.getLast?_isSome.mpr hne)
  refine ⟨{ (trainSteps E (g hp.seed) fmt hp.epochs hp.epochs.toNat 0 ⟨0⟩ []
      { t0 with state := .running, startedSet := true }).2.2.1 with
        state := .succeeded
        endedSet := true
        message := "Training completed"
        metrics := some (stripEpoch last) }, ?_, rfl, ?_, ?_, ?_, ?_⟩
  · simp only [trainWorker]
    rw [hlast]
    simp only [← List.cons_append, List.getLast?_concat]
  · dsimp only
    rw [trainSteps_rowF_history _ _ _ _ _ _ _ _ _ (by omega), hlen]
  · intro e he1 heN
    dsimp only
    rw [trainSteps_rowF_history _ _ _ _ _ _ _ _ _ (by omega), hhist]
    rw [List.get?_map, List.get?_range (by omega)]
    simp [entryAt_eq_specEntry E (g hp.seed) hp N hE e he1]
  · refine ⟨last, ?_, rfl⟩
    dsimp only
    rw [trainSteps_rowF_history _ _ _ _ _ _ _ _ _ (by omega)]
    exact hlast
  · rw [htoNat, trainSteps_rstate]
    simp

/-- Claim C5: for all valid hyperparameters with epoch count `N ≥ 1` and a
fixed seed `S`, two separate executions of the training simulation
produce identical history sequences and identical final metrics: the
whole committed trace (which carries the history and the final metrics)
is a deterministic function of the hyperparameters — any two runs whose
seeded generators emit the same values for seed `S` (which
`random.seed(S)` guarantees) produce identical traces, and only the
first `3*N` draws of the stream are ever consumed. -/
theorem C5_determinism (E : ℚ → ℚ) (fmt : ℚ → String) (g₁ g₂ : ℤ → ℕ → ℚ)
    (hp : Hyperparameters) (t0 : Task) (N : ℕ) (hN : 1 ≤ N)
    (hE : hp.epochs = (N : ℤ))
    (hagree : ∀ i < 3 * N, g₁ hp.seed i = g₂ hp.seed i) :
    trainWorker E g₁ fmt hp t0 = trainWorker E g₂ fmt hp t0 := by
  have htoNat : hp.epochs.toNat = N := by
    rw [hE]
    exact Int.toNat_natCast N
  have hsteps :
      trainSteps E (g₁ hp.seed) fmt hp.epochs hp.epochs.toNat 0 ⟨0⟩ []
        { t0 with state := .running, startedSet := true } =
      trainSteps E (g₂ hp.seed) fmt hp.epochs hp.epochs.toNat 0 ⟨0⟩ []
        { t0 with state := .running, startedSet := true } := by
    apply trainSteps_congr
    intro i hi1 hi2
    dsimp only at hi2
    rw [htoNat] at hi2
    exact hagree i (by omega)
  simp only [trainWorker]
  rw [hsteps]

/-- How the spec's forward-only state machine reads on a committed
state sequence: ranks never decrease (`queued → running → terminal`,
no backward transition, no re-entry from a later state), and a
terminal state occurs only as the very last committed state (no
transition out of `succeeded`/`failed`). -/
def ForwardOnly (sts : List TaskState) : Prop :=
  List.Chain' (fun a b => a.rank ≤ b.rank) sts ∧
  ∀ st ∈ sts.dropLast, st.isTerminal = false

theorem forwardOnly_shape (k : ℕ) (t : TaskState) (ht : t.isTerminal = true) :
    ForwardOnly (.queued :: .running :: List.replicate k .running ++ [t]) := by
  constructor
  · simp only [List.cons_append]
    rw [List.chain'_cons]
    refine ⟨by decide, ?_⟩
    induction k with
    | zero =>
      rw [List.replicate_zero, List.nil_append]
      cases t
      · exact absurd ht (by decide)
      · exact absurd ht (by decide)
      · exact List.chain'_cons.mpr ⟨by decide, List.chain'_singleton _⟩
      · exact List.chain'_cons.mpr ⟨by decide, List.chain'_singleton _⟩
    | succ k ih =>
      rw [List.replicate_succ, List.cons_append, List.chain'_cons]
      exact ⟨le_rfl, ih⟩
  · intro st hst
    rw [List.dropLast_concat] at hst
    rcases hst with _ | ⟨_, hst⟩
    · rfl
    · rcases hst with _ | ⟨_, hst⟩
      · rfl
      · rw [List.eq_of_mem_replicate hst]
        rfl

theorem trainWorker_stateList (E : ℚ → ℚ) (g : ℤ → ℕ → ℚ) (fmt : ℚ → String)
    (hp : Hyperparameters) (t0 : Task) :
    (trainWorker E g fmt hp t0).map Task.state =
      .running :: List.replicate hp.epochs.toNat .running ++
        [if hp.epochs.toNat = 0 then TaskState.failed else .succeeded] := by
  have hlen : (trainSteps E (g hp.seed) fmt hp.epochs hp.epochs.toNat 0 ⟨0⟩ []
      { t0 with state := .running, startedSet := true }).1.length = hp.epochs.toNat := by
    rw [trainSteps_hist]
    simp
  have hstates := trainSteps_states E (g hp.seed) fmt hp.epochs hp.epochs.toNat 0 ⟨0⟩ []
      { t0 with state := .running, startedSet := true }
  rcases hcase : (trainSteps E (g hp.seed) fmt hp.epochs hp.epochs.toNat 0 ⟨0⟩ []
      { t0 with state := .running, startedSet := true }).1.getLast? with _ | last
  · have hnil := List.getLast?_eq_none_iff.mp hcase
    have hz : hp.epochs.toNat = 0 := by
      rw [hnil] at hlen
      simpa using hlen.symm
    simp only [trainWorker]
    rw [hcase]
    simp only [List.map_cons, List.map_append, List.map_singleton, hstates, hz]
    rfl
  · have hne : (trainSteps E (g hp.seed) fmt hp.epochs hp.epochs.toNat 0 ⟨0⟩ []
        { t0 with state := .running, startedSet := true }).1 ≠ [] := by
      intro hcon
      rw [hcon] at hcase
      simp at hcase
    have hz : hp.epochs.toNat ≠ 0 := by
      intro hcon
      exact hne (List.length_eq_zero.mp (hlen.trans hcon))
    simp only [trainWorker]
    rw [hcase]
    simp only [List.map_cons, List.map_append, List.map_singleton, hstates, if_neg hz]
    rfl

/-- Claim C3: for every Task, the sequence of states it passes through
(the `queued` state written at submission, followed by the states of
the successive committed snapshots of the background worker — the only
writer of a task row) is strictly forward along
`queued → running → {succeeded | failed}`: ranks never decrease, no
state is re-entered from a later state, and a terminal state occurs
only as the final committed state, for both the training worker (any
hyperparameters) and the evaluation worker. -/
theorem C3_forward_only (E : ℚ → ℚ) (g : ℤ → ℕ → ℚ) (h : String → String → ℤ)
    (fmt : ℚ → String) (hp : Hyperparameters) (t0 t1 : Task)
    (hq0 : t0.state = .queued) (hq1 : t1.state = .queued) :
    ForwardOnly (t0.state :: (trainWorker E g fmt hp t0).map Task.state) ∧
    ForwardOnly (t1.state :: (evalWorker E g h t1).map Task.state) := by
  constructor
  · rw [hq0, trainWorker_stateList]
    rcases Nat.eq_zero_or_pos hp.epochs.toNat with hz | hz
    · rw [hz, if_pos rfl]
      exact forwardOnly_shape _ _ rfl
    · rw [if_neg (by omega)]
      exact forwardOnly_shape _ _ rfl
  · have heval : (evalWorker E g h t1).map Task.state =
        .running :: List.replicate 5 .running ++ [TaskState.succeeded] := by
      simp [evalWorker, evalSteps, List.replicate]
    rw [hq1, heval]
    exact forwardOnly_shape _ _ rfl

theorem trainWorker_runningProgress (E : ℚ → ℚ) (g : ℤ → ℕ → ℚ) (fmt : ℚ → String)
    (hp : Hyperparameters) (t0 : Task) (N : ℕ) (hN : 1 ≤ N)
    (hE : hp.epochs = (N : ℤ)) :
    ((trainWorker E g fmt hp t0).filter
        (fun r => r.state == TaskState.running)).map Task.progress =
      t0.progress ::
        (List.range N).map (fun (j : ℕ) => ((0 : ℚ) + (j : ℚ) + 1) / ((hp.epochs : ℤ) : ℚ)) := by
  have htoNat : hp.epochs.toNat = N := by
    rw [hE]
    exact Int.toNat_natCast N
  have hlen : (trainSteps E (g hp.seed) fmt hp.epochs hp.epochs.toNat 0 ⟨0⟩ []
      { t0 with state := .running, startedSet := true }).1.length = N := by
    rw [htoNat, trainSteps_hist]
    simp
  have hne : (trainSteps E (g hp.seed) fmt hp.epochs hp.epochs.toNat 0 ⟨0⟩ []
      { t0 with state := .running, startedSet := true }).1 ≠ [] := by
    intro hcon
    rw [hcon] at hlen
    simp at hlen
    omega
  obtain ⟨last, hlast⟩ := Option.isSome_iff_exists.mp (List.getLast?_isSome.mpr hne)
  have hall : ∀ x ∈ (trainSteps E (g hp.seed) fmt hp.epochs hp.epochs.toNat 0 ⟨0⟩ []
      { t0 with state := .running, startedSet := true }).2.2.2,
      x.state = TaskState.running := by
    intro x hx
    have hmem : x.state ∈ (trainSteps E (g hp.seed) fmt hp.epochs hp.epochs.toNat 0 ⟨0⟩ []
        { t0 with state := .running, startedSet := true }).2.2.2.map Task.state :=
      List.mem_map_of_mem Task.state hx
    rw [trainSteps_states] at hmem
    exact List.eq_of_mem_replicate hmem
  simp only [trainWorker]
  rw [hlast]
  simp only [List.filter_cons, List.filter_append]
  have hrow1 : (({ t0 with state := .running, startedSet := true } : Task).state ==
      TaskState.running) = true := by rfl
  rw [if_pos hrow1]
  have hcommits : (trainSteps E (g hp.seed) fmt hp.epochs hp.epochs.toNat 0 ⟨0⟩ []
      { t0 with state := .running, startedSet := true }).2.2.2.filter
        (fun r => r.state == TaskState.running) =
      (trainSteps E (g hp.seed) fmt hp.epochs hp.epochs.toNat 0 ⟨0⟩ []
      { t0 with state := .running, startedSet := true }).2.2.2 := by
    apply List.filter_eq_self.mpr
    intro x hx
    rw [hall x hx]
    rfl
  rw [hcommits]
  rw [if_neg (by decide)]
  simp only [List.filter_nil, List.append_nil, List.map_cons]
  rw [trainSteps_progressList]
  rw [htoNat]
  rfl

/-- Claim C4: for every Task (train with `epochs = N ≥ 1`, or evaluate)
started from a fresh `queued` record (`progress = 0.0`), the persisted
progress fraction is non-decreasing over the sequence of checkpoint
writes performed while the Task is in the `running` state, and equals
exactly 1.0 at the final running-phase update before the transition to
`succeeded`. -/
theorem C4_progress_monotone (E : ℚ → ℚ) (g : ℤ → ℕ → ℚ) (h : String → String → ℤ)
    (fmt : ℚ → String) (hp : Hyperparameters) (t0 t1 : Task) (N : ℕ)
    (hN : 1 ≤ N) (hE : hp.epochs = (N : ℤ))
    (hpr0 : t0.progress = 0) (hpr1 : t1.progress = 0) :
    (List.Chain' (· ≤ ·) (((trainWorker E g fmt hp t0).filter
        (fun r => r.state == TaskState.running)).map Task.progress) ∧
      (((trainWorker E g fmt hp t0).filter
        (fun r => r.state == TaskState.running)).map Task.progress).getLast? = some 1) ∧
    (List.Chain' (· ≤ ·) (((evalWorker E g h t1).filter
        (fun r => r.state == TaskState.running)).map Task.progress) ∧
      (((evalWorker E g h t1).filter
        (fun r => r.state == TaskState.running)).map Task.progress).getLast? = some 1) := by
  have hNQ : (0 : ℚ) < ((N : ℤ) : ℚ) := by
    push_cast
    exact_mod_cast Nat.pos_of_ne_zero (by omega)
  obtain ⟨M, rfl⟩ : ∃ M, N = M + 1 := ⟨N - 1, by omega⟩
  constructor
  · rw [trainWorker_runningProgress E g fmt hp t0 (M + 1) hN hE, hpr0, hE]
    constructor
    · rw [List.chain'_cons']
      constructor
      · intro y hy
        rw [List.range_succ_eq_map, List.map_cons, List.head?_cons, Option.mem_some_iff] at hy
        rw [← hy]
        positivity
      · rw [List.chain'_map, List.chain'_range_succ]
        intro m hm
        rw [div_le_div_iff_of_pos_right hNQ]
        push_cast
        linarith
    · rw [List.range_succ, List.map_append, List.map_singleton]
      rw [← List.cons_append, List.getLast?_concat]
      congr 1
      rw [div_eq_one_iff_eq (by positivity)]
      push_cast
      ring
  · have hlist : ((evalWorker E g h t1).filter
        (fun r => r.state == TaskState.running)).map Task.progress =
        t1.progress :: [1/5, 2/5, 3/5, 4/5, 1] := by
      norm_num [evalWorker, evalSteps, List.filter_cons, List.filter_append,
        List.filter_nil, beq_iff_eq]
      decide
    rw [hlist, hpr1]
    constructor
    · norm_num [List.chain'_cons]
    · rfl

/-- Claim C6: for every evaluation task, the worker performs exactly 5
progress steps, the `i`-th (1-based) setting the progress fraction to
`i/5` with a status message; after the final step it derives a single
seed from the hash of the pair `(model_tag, dataset_id)`
(`abs(hash(pair)) % 2^32`), seeds the generator with it, and draws
`loss = U(0.2,0.6)`, `accuracy = U(0.7,0.9)`,
`perplexity = exp(loss*2.5)`, `style_score = U(0.65,0.9)` in that draw
order; consequently two invocations with the same
`(model_tag, dataset_id)` pair — whose seeded generators therefore
emit the same values — yield identical metrics (indeed identical
traces). -/
theorem C6_evaluation (E : ℚ → ℚ) (g₁ g₂ : ℤ → ℕ → ℚ) (h : String → String → ℤ)
    (t0 : Task)
    (hagree : ∀ i < 3,
      g₁ (evalSeed h t0.model_tag t0.dataset_id : ℤ) i =
      g₂ (evalSeed h t0.model_tag t0.dataset_id : ℤ) i) :
    (((evalWorker E g₁ h t0).drop 1).dropLast.map (fun r => (r.progress, r.message)) =
      (List.range 5).map (fun (i : ℕ) => (((i : ℚ) + 1) / 5,
        "Evaluating " ++ t0.model_tag ++ " on " ++ t0.dataset_id ++
          " - Step " ++ toString (i + 1) ++ "/5"))) ∧
    (((evalWorker E g₁ h t0).getLast?).map (fun r => (r.state, r.metrics)) =
      some (.succeeded, some (specEvalMetrics E g₁ h t0.model_tag t0.dataset_id))) ∧
    evalWorker E g₁ h t0 = evalWorker E g₂ h t0 := by
  refine ⟨?_, ?_, ?_⟩
  · norm_num [evalWorker, evalSteps, List.range_succ]
  · norm_num [evalWorker, evalSteps, specEvalMetrics, specU, uniform]
  · have h0 := hagree 0 (by norm_num)
    have h1 := hagree 1 (by norm_num)
    have h2 := hagree 2 (by norm_num)
    simp only [evalWorker, evalSteps, uniform]
    rw [h0, h1, h2]

/-- Helper: `List.find?` over an appended list when the first part has no
match. -/
theorem find?_append_none {α : Type} (p : α → Bool) (l₁ l₂ : List α)
    (h : l₁.find? p = none) : (l₁ ++ l₂).find? p = l₂.find? p := by
  induction l₁ with
  | nil => rfl
  | cons a l ih =>
    have hpa : p a = false := by
      rcases hcase : p a with _ | _
      · rfl
      · rw [List.find?_cons_of_pos _ hcase] at h
        exact absurd h (by simp)
    have hpa' : ¬ p a = true := by
      rw [hpa]
      exact Bool.false_ne_true
    rw [List.find?_cons_of_neg _ hpa'] at h
    rw [List.cons_append, List.find?_cons_of_neg _ hpa']
    exact ih h

/-- Claim C7: for every `task_id` for which no Task record has been
written, `get(task_id)` returns `NotFound`; and for every Task read
immediately after submission (before the background worker has
performed any update), `get(task_id)` returns state `queued` with
progress 0.0. -/
theorem C7_get_task :
    (∀ (db : DB) (tid : String),
      findTask db tid = none → get_training_task db tid = .error .notFound) ∧
    (∀ (db : DB) (req : TrainRequest) (tid : String) (d : DatasetRow),
      findDataset db req.dataset_id = some d →
      db.tasks.find? (fun p => p.1 == tid) = none →
      ∃ resp : TaskResponse,
        (start_training db req tid).2 = .ok resp ∧
        resp.state = .queued ∧ resp.progress = 0 ∧
        get_training_task (start_training db req tid).1 tid = .ok resp) := by
  constructor
  · intro db tid hnone
    rw [get_training_task, hnone]
  · intro db req tid d hds hfresh
    refine ⟨task_to_response {
      task_id := tid
      type := "train"
      state := .queued
      startedSet := false
      endedSet := false
      progress := 0.0
      message := "Queued for training"
      model_tag := req.model_tag
      dataset_id := req.dataset_id
      hyperparameters := some req.hyperparameters
      metrics := none
      history := [] }, ?_, rfl, by norm_num [task_to_response], ?_⟩
    · rw [start_training, hds]
    · rw [start_training, hds]
      rw [get_training_task, findTask]
      rw [find?_append_none _ _ _ hfresh]
      simp [List.find?_cons]

/-- Claim C8: for every create-dataset request whose identifier equals
the identifier of an already-existing Dataset, the operation returns a
`Conflict` error and leaves the whole store (in particular the
existing Dataset record) unchanged. -/
theorem C8_duplicate_dataset (db : DB) (req : CreateDatasetRequest) (d : DatasetRow)
    (hdup : findDataset db req.dataset_id = some d) :
    create_dataset db req = (db, .error .conflict) := by
  rw [create_dataset, hdup]

/-- Claim C9: for every create-dataset request with a fresh identifier
and a non-empty samples list, the operation first commits the Dataset
record and then raises an error before any sample is stored (the
`_add_samples` helper it calls is commented out, hence undefined): the
caller receives an error while the Dataset remains persisted with zero
samples — dataset creation with initial samples is never atomic and
never succeeds. -/
theorem C9_create_with_samples (db : DB) (req : CreateDatasetRequest)
    (s0 : DatasetSampleCreate) (ss : List DatasetSampleCreate)
    (hfresh : findDataset db req.dataset_id = none)
    (hsamp : req.samples = some (s0 :: ss))
    (hpk : ∀ s ∈ db.samples, s.dataset_fk ≠ db.nextPk) :
    (create_dataset db req).2 = .error .nameError ∧
    findDataset (create_dataset db req).1 req.dataset_id =
      some ⟨db.nextPk, req.dataset_id, req.description⟩ ∧
    (create_dataset db req).1.samples = db.samples ∧
    samplesFor (create_dataset db req).1 db.nextPk = [] := by
  have hstep : create_dataset db req =
      (⟨db.datasets ++ [⟨db.nextPk, req.dataset_id, req.description⟩],
        db.samples, db.tasks, db.nextPk + 1⟩, .error .nameError) := by
    rw [create_dataset, hfresh, hsamp]
  refine ⟨by rw [hstep], ?_, by rw [hstep], ?_⟩
  · rw [hstep, findDataset]
    have hnone : db.datasets.find? (fun x => x.dataset_id == req.dataset_id) = none := hfresh
    rw [find?_append_none _ _ _ hnone]
    simp [List.find?_cons]
  · rw [hstep, samplesFor]
    apply List.filter_eq_nil.mpr
    intro s hs
    simpa using hpk s hs

/-- The store used for the C2 failing input: one dataset `"d1"`
(primary key 0) owning one sample. -/
def dbC2 : DB :=
  { datasets := [⟨0, "d1", none⟩]
    samples := [⟨0, "p", "e", "t", none⟩]
    tasks := []
    nextPk := 1 }

/-- Claim C2, code behaviour at the failing input.  The claim says
deleting an existing Dataset removes the Dataset and all of its
Samples; the code instead calls `.delete()` on the `ScalarResult`
returned by `session.exec(select(...))`, which has no such method, so
every delete of an existing dataset raises `AttributeError` (HTTP 500)
before deleting anything: afterwards the dataset still exists and its
samples are still present. -/
theorem C2_delete_dataset_behaviour :
    delete_dataset dbC2 "d1" = (dbC2, .error .attributeError) ∧
    get_dataset_samples dbC2 "d1" = .ok [⟨0, "p", "e", "t", none⟩] ∧
    samplesFor dbC2 0 = [⟨0, "p", "e", "t", none⟩] := by
  refine ⟨rfl, rfl, rfl⟩

set_option maxRecDepth 4000 in
/-- Claim C10: for every training request with `epochs = 0` (which no
validation rejects), the submission still succeeds and returns a
`queued` Task; the simulation loop body never executes, and the
background worker then fails when taking the last element of the empty
history, leaving the Task in state `failed` with a message beginning
`"Training failed:"` and an end timestamp set — rather than rejecting
the request synchronously. -/
theorem C10_epochs_zero (E : ℚ → ℚ) (g : ℤ → ℕ → ℚ) (fmt : ℚ → String)
    (db : DB) (req : TrainRequest) (tid : String) (d : DatasetRow) (t0 : Task)
    (hds : findDataset db req.dataset_id = some d)
    (hep : req.hyperparameters.epochs = 0) :
    (∃ resp : TaskResponse,
      (start_training db req tid).2 = .ok resp ∧ resp.state = .queued) ∧
    trainWorker E g fmt req.hyperparameters t0 =
      [{ t0 with state := .running, startedSet := true },
       { t0 with
          state := .failed
          startedSet := true
          endedSet := true
          message := "Training failed: list index out of range" }] ∧
    (∃ rest : String,
      "Training failed: list index out of range" = "Training failed:" ++ rest) := by
  refine ⟨?_, ?_, ⟨" list index out of range", by decide⟩⟩
  · simp only [start_training, hds]
    exact ⟨_, rfl, rfl⟩
  · simp [trainWorker, trainSteps, hep]

/-- A concrete stand-in for `math.exp` used to instantiate the
abstract parameter in closed examples. -/
def idExp : ℚ → ℚ := fun q => q

/-- A concrete (all-zero) seeded stream generator. -/
def zeroGen : ℤ → ℕ → ℚ := fun _ _ => 0

/-- A concrete float formatter. -/
def fmt0 : ℚ → String := fun _ => ""

/-- A concrete stand-in for Python's `hash` on a pair of strings. -/
def hash0 : String → String → ℤ := fun a b => (a.length : ℤ) + (b.length : ℤ)

/-- Concrete hyperparameters with `epochs = 2`. -/
def hpTwo : Hyperparameters := { epochs := 2, seed := 42 }

/-- Concrete hyperparameters with `epochs = 0`. -/
def hpZero : Hyperparameters := { epochs := 0, seed := 42 }

/-- A freshly created queued task row. -/
def queuedTask : Task :=
  { task_id := "t1"
    type := "train"
    state := .queued
    startedSet := false
    endedSet := false
    progress := 0
    message := "Queued for training"
    model_tag := "m"
    dataset_id := "d"
    hyperparameters := none
    metrics := none
    history := [] }

/-- A store holding one dataset `"d"` and nothing else. -/
def dbOne : DB := { datasets := [⟨0, "d", none⟩], samples := [], tasks := [], nextPk := 1 }

/-- A training request against dataset `"d"` with `epochs = 0`. -/
def reqTrain : TrainRequest :=
  { model_tag := "m", dataset_id := "d", hyperparameters := hpZero }

/-- A create request for a fresh dataset carrying one initial sample. -/
def reqC9 : CreateDatasetRequest :=
  { dataset_id := "d2", samples := some [⟨"p", "e", "t", none⟩] }

/-- Witness for C1 at `epochs = 2`, the all-zero stream. -/
theorem C1_training_simulation_witness :
    (1 : ℕ) ≤ 2 ∧ hpTwo.epochs = ((2 : ℕ) : ℤ) ∧
    (∃ finalRow : Task,
      (trainWorker idExp zeroGen fmt0 hpTwo queuedTask).getLast? = some finalRow ∧
      finalRow.state = .succeeded ∧
      finalRow.history.length = 2 ∧
      (∀ e : ℕ, 1 ≤ e → e ≤ 2 →
        finalRow.history.get? (e - 1) = some (specEntry idExp (zeroGen hpTwo.seed) 2 e)) ∧
      (∃ lastEntry : HistEntry,
        finalRow.history.getLast? = some lastEntry ∧
        finalRow.metrics = some (stripEpoch lastEntry)) ∧
      (trainSteps idExp (zeroGen hpTwo.seed) fmt0 hpTwo.epochs hpTwo.epochs.toNat 0 ⟨0⟩ []
        { queuedTask with state := .running, startedSet := true }).2.1 = ⟨3 * 2⟩) :=
  ⟨by decide, by decide,
    C1_training_simulation idExp zeroGen fmt0 hpTwo queuedTask 2 (by decide) (by decide)⟩

/-- Witness for C3 at concrete inputs. -/
theorem C3_forward_only_witness :
    queuedTask.state = .queued ∧
    ForwardOnly (queuedTask.state ::
      (trainWorker idExp zeroGen fmt0 hpTwo queuedTask).map Task.state) ∧
    ForwardOnly (queuedTask.state ::
      (evalWorker idExp zeroGen hash0 queuedTask).map Task.state) :=
  ⟨rfl,
    (C3_forward_only idExp zeroGen hash0 fmt0 hpTwo queuedTask queuedTask rfl rfl).1,
    (C3_forward_only idExp zeroGen hash0 fmt0 hpTwo queuedTask queuedTask rfl rfl).2⟩

/-- Witness for C4 at `epochs = 2` and a fresh queued task. -/
theorem C4_progress_monotone_witness :
    queuedTask.progress = 0 ∧
    (List.Chain' (· ≤ ·) (((trainWorker idExp zeroGen fmt0 hpTwo queuedTask).filter
        (fun r => r.state == TaskState.running)).map Task.progress) ∧
      (((trainWorker idExp zeroGen fmt0 hpTwo queuedTask).filter
        (fun r => r.state == TaskState.running)).map Task.progress).getLast? = some 1) ∧
    (List.Chain' (· ≤ ·) (((evalWorker idExp zeroGen hash0 queuedTask).filter
        (fun r => r.state == TaskState.running)).map Task.progress) ∧
      (((evalWorker idExp zeroGen hash0 queuedTask).filter
        (fun r => r.state == TaskState.running)).map Task.progress).getLast? = some 1) :=
  ⟨rfl,
    (C4_progress_monotone idExp zeroGen hash0 fmt0 hpTwo queuedTask queuedTask 2
      (by decide) (by decide) rfl rfl).1,
    (C4_progress_monotone idExp zeroGen hash0 fmt0 hpTwo queuedTask queuedTask 2
      (by decide) (by decide) rfl rfl).2⟩

/-- Witness for C5 at `epochs = 2` with two (equal) concrete streams. -/
theorem C5_determinism_witness :
    (∀ i, i < 3 * 2 → zeroGen hpTwo.seed i = zeroGen hpTwo.seed i) ∧
    trainWorker idExp zeroGen fmt0 hpTwo queuedTask =
      trainWorker idExp zeroGen fmt0 hpTwo queuedTask :=
  ⟨fun _ _ => rfl,
    C5_determinism idExp fmt0 zeroGen zeroGen hpTwo queuedTask 2
      (by decide) (by decide) (fun _ _ => rfl)⟩

/-- Witness for C6 at a concrete task, stream and hash. -/
theorem C6_evaluation_witness :
    (∀ i, i < 3 →
      zeroGen (evalSeed hash0 queuedTask.model_tag queuedTask.dataset_id : ℤ) i =
      zeroGen (evalSeed hash0 queuedTask.model_tag queuedTask.dataset_id : ℤ) i) ∧
    ((((evalWorker idExp zeroGen hash0 queuedTask).drop 1).dropLast.map
        (fun r => (r.progress, r.message)) =
      (List.range 5).map (fun (i : ℕ) => (((i : ℚ) + 1) / 5,
        "Evaluating " ++ queuedTask.model_tag ++ " on " ++ queuedTask.dataset_id ++
          " - Step " ++ toString (i + 1) ++ "/5"))) ∧
    (((evalWorker idExp zeroGen hash0 queuedTask).getLast?).map
        (fun r => (r.state, r.metrics)) =
      some (.succeeded,
        some (specEvalMetrics idExp zeroGen hash0 queuedTask.model_tag queuedTask.dataset_id))) ∧
    evalWorker idExp zeroGen hash0 queuedTask = evalWorker idExp zeroGen hash0 queuedTask) :=
  ⟨fun _ _ => rfl,
    C6_evaluation idExp zeroGen zeroGen hash0 queuedTask (fun _ _ => rfl)⟩

/-- Witness for C7 at a concrete store. -/
theorem C7_get_task_witness :
    findTask dbOne "missing" = none ∧
    get_training_task dbOne "missing" = .error .notFound ∧
    findDataset dbOne reqTrain.dataset_id = some ⟨0, "d", none⟩ ∧
    dbOne.tasks.find? (fun p => p.1 == "t1") = none ∧
    (∃ resp : TaskResponse,
      (start_training dbOne reqTrain "t1").2 = .ok resp ∧
      resp.state = .queued ∧ resp.progress = 0 ∧
      get_training_task (start_training dbOne reqTrain "t1").1 "t1" = .ok resp) :=
  ⟨rfl, C7_get_task.1 dbOne "missing" rfl, by decide, rfl,
    C7_get_task.2 dbOne reqTrain "t1" ⟨0, "d", none⟩ (by decide) rfl⟩

/-- Witness for C8 at a concrete duplicate create request. -/
theorem C8_duplicate_dataset_witness :
    findDataset dbOne "d" = some ⟨0, "d", none⟩ ∧
    create_dataset dbOne { dataset_id := "d" } = (dbOne, .error .conflict) :=
  ⟨by decide,
    C8_duplicate_dataset dbOne { dataset_id := "d" } ⟨0, "d", none⟩ (by decide)⟩

/-- Witness for C9 at a concrete fresh create request with one sample. -/
theorem C9_create_with_samples_witness :
    findDataset dbOne reqC9.dataset_id = none ∧
    reqC9.samples = some (⟨"p", "e", "t", none⟩ :: []) ∧
    (∀ s ∈ dbOne.samples, s.dataset_fk ≠ dbOne.nextPk) ∧
    ((create_dataset dbOne reqC9).2 = .error .nameError ∧
     findDataset (create_dataset dbOne reqC9).1 reqC9.dataset_id =
       some ⟨dbOne.nextPk, reqC9.dataset_id, reqC9.description⟩ ∧
     (create_dataset dbOne reqC9).1.samples = dbOne.samples ∧
     samplesFor (create_dataset dbOne reqC9).1 dbOne.nextPk = []) :=
  ⟨by decide, rfl, by simp [dbOne],
    C9_create_with_samples dbOne reqC9 ⟨"p", "e", "t", none⟩ [] (by decide) rfl
      (by simp [dbOne])⟩

/-- Witness for C10 at a concrete request with `epochs = 0`. -/
theorem C10_epochs_zero_witness :
    findDataset dbOne reqTrain.dataset_id = some ⟨0, "d", none⟩ ∧
    reqTrain.hyperparameters.epochs = 0 ∧
    ((∃ resp : TaskResponse,
      (start_training dbOne reqTrain "t1").2 = .ok resp ∧ resp.state = .queued) ∧
    trainWorker idExp zeroGen fmt0 reqTrain.hyperparameters queuedTask =
      [{ queuedTask with state := .running, startedSet := true },
       { queuedTask with
          state := .failed
          startedSet := true
          endedSet := true
          message := "Training failed: list index out of range" }] ∧
    (∃ rest : String,
      "Training failed: list index out of range" = "Training failed:" ++ rest)) :=
  ⟨by decide, rfl,
    C10_epochs_zero idExp zeroGen fmt0 dbOne reqTrain "t1" ⟨0, "d", none⟩ queuedTask
      (by decide) rfl⟩

end Backend
